import Mathlib

/-!
Verification of the Gauss-Newton solver core of this repository
(src/mor/opt/gn.py): the backtracking Armijo line search `lnsrch_armijo`
and the damped Gauss-Newton driver `gn`.

The embedding works over exact rationals: vectors are `List ℚ`, matrices
are `List (List ℚ)`.  The external numerical capabilities the Python code
delegates to (numpy / scipy) are treated as in the specification's
component boundary:

* `np.inner` is the dot product, defined exactly (`inner`);
* `F(x).T.dot(f(x))` is the matrix-transpose-vector product, defined
  exactly (`matTvec`);
* `np.linalg.norm` (the Euclidean norm) is irrational-valued in general,
  so the solver embedding receives it as an explicit function parameter
  `nrm : Vec → ℚ`; for the one-dimensional concrete runs below the
  Euclidean norm coincides exactly with `nrm1`, the sum of absolute
  values;
* `scipy.linalg.lstsq` (the default direction solver) is external; the
  solver embedding receives the direction solver as the parameter
  `gnsolver`, exactly as the Python signature allows;
* `np.isfinite`: rationals have no non-finite values, so the finiteness
  judgement applied to the computed direction is passed in as the
  parameter `dxfinite : Vec → Bool`.  In the source the only consumer of
  this judgement is a diagnostic branch (print + np.savez) whose body has
  no effect on control flow or state, which is why the embedding can
  carry the judgement as an opaque parameter and prove results about it.

Exceptions are embedded as `Except`: `BadStep` raised by a trajectory or
objective evaluation is `Except.error ()`; the line search's non-descent
error and the solver's fall-through stopping-criteria error become the
explicit error enumerations `LnsrchError` and `GnError`.
-/

/-- Vectors: `numpy` one-dimensional arrays of reals, embedded as lists of
rationals. -/
abbrev Vec := List ℚ

/-- Matrices: `numpy` two-dimensional arrays, embedded as lists of rows. -/
abbrev Mat := List (List ℚ)

/-- `np.inner`: the dot product of two vectors. -/
def npInner (a b : Vec) : ℚ :=
  (List.zipWith (· * ·) a b).sum

/-- `A.T.dot(v)`: transpose-matrix-vector product, component `j` is the
dot product of column `j` of `A` with `v`. -/
def matTvec (A : Mat) (v : Vec) : Vec :=
  (List.range (A.headD []).length).map fun j =>
    npInner (A.map fun row => row.getD j 0) v

/-- The default trajectory `lambda x0, p, t: x0 + t * p` used by both
`lnsrch_armijo` and `gn` (src/mor/opt/gn.py lines 37-38 and 120-121). -/
def defaultTrajectory (x0 p : Vec) (t : ℚ) : Except Unit Vec :=
  Except.ok (List.zipWith (fun a b => a + t * b) x0 p)

/-- Errors that `lnsrch_armijo` can propagate to its caller:
`invalidDirection` is the `raise Exception('Descent direction p is not a
descent direction ...')` of line 41; `badStep` is a `BadStep` exception
escaping from the evaluation `fx0 = f(x0)` of line 45, which sits outside
the `try` block. -/
inductive LnsrchError where
  | invalidDirection
  | badStep
deriving DecidableEq

/-- The backtracking loop of `lnsrch_armijo` (src/mor/opt/gn.py lines
49-59).  Each pass evaluates `trajectory(x0, p, alpha)` and then
`f(x)`; a `BadStep` (`Except.error`) from either is caught and treated
as a failed trial; the Armijo test `fx < fx0 + alpha * ftol * dg`
returns the accepted triple; otherwise `alpha` is multiplied by
`bt_factor` and the loop continues.  `none` means the iteration budget
was exhausted without success. -/
def lnsrchLoop (f : Vec → Except Unit ℚ)
    (trajectory : Vec → Vec → ℚ → Except Unit Vec)
    (p x0 : Vec) (fx0 dg ftol bt_factor : ℚ) :
    ℕ → ℚ → Option (Vec × ℚ × ℚ)
  | 0, _ => none
  | it + 1, alpha =>
    match trajectory x0 p alpha with
    | Except.error _ =>
        lnsrchLoop f trajectory p x0 fx0 dg ftol bt_factor it (alpha * bt_factor)
    | Except.ok x =>
      match f x with
      | Except.error _ =>
          lnsrchLoop f trajectory p x0 fx0 dg ftol bt_factor it (alpha * bt_factor)
      | Except.ok fx =>
        if fx < fx0 + alpha * ftol * dg then some (x, alpha, fx)
        else lnsrchLoop f trajectory p x0 fx0 dg ftol bt_factor it (alpha * bt_factor)

/-- Embedding of `lnsrch_armijo` (src/mor/opt/gn.py lines 9-66).
`f` is the objective, `g` the gradient, `p` the direction, `x0` the
current location; defaults in the source are `bt_factor=0.5`,
`ftol=1e-4`, `maxiter=40`.  Line 40 raises only when `dg > 0` strictly.
On an exhausted budget the source resets `alpha = 0`, `x = x0`,
`fx = fx0` (lines 62-65) and returns `(x, alpha, fx)`. -/
def lnsrch_armijo (f : Vec → Except Unit ℚ) (g p x0 : Vec)
    (bt_factor ftol : ℚ) (maxiter : ℕ)
    (trajectory : Vec → Vec → ℚ → Except Unit Vec) :
    Except LnsrchError (Vec × ℚ × ℚ) :=
  let dg := npInner g p
  if 0 < dg then Except.error LnsrchError.invalidDirection
  else
    match f x0 with
    | Except.error _ => Except.error LnsrchError.badStep
    | Except.ok fx0 =>
      match lnsrchLoop f trajectory p x0 fx0 dg ftol bt_factor maxiter 1 with
      | some r => Except.ok r
      | none => Except.ok (x0, 0, fx0)

/-- Errors the embedded solver can surface: `invalidDirection` and
`badStep` are exceptions propagating out of the internal line-search
call (src/mor/opt/gn.py line 166); `stoppingCriteria` is the
`raise Exception('Stopping criteria not determined!')` of line 208;
`illConditionedSystem` appears in the specification's error taxonomy for
a failed linear solve, but the source never raises it (lines 153-158
only print diagnostics and save the offending system to disk). -/
inductive GnError where
  | invalidDirection
  | badStep
  | stoppingCriteria
  | illConditionedSystem
deriving DecidableEq

/-- The non-descent fallback of `gn` (src/mor/opt/gn.py lines 162-164):
`if np.inner(grad, dx) >= 0: dx = -grad`. -/
def gnDirection (grad dx : Vec) : Vec :=
  if 0 ≤ npInner grad dx then grad.map (fun t => -t) else dx

/-- The loop state of `gn` as of the end of an iteration: the Python
variables `x`, `grad`, `normgrad`, `normdx`, `f_eval_new`,
`np.linalg.norm(f_eval)` and `it` that the post-loop classification
(lines 191-208) reads. -/
structure GnState where
  x : Vec
  grad : Vec
  normgrad : ℚ
  normdx : ℚ
  fEvalNew : ℚ
  normfEval : ℚ
  it : ℕ
deriving DecidableEq

/-- One iteration of the `gn` loop body (src/mor/opt/gn.py lines
133-189), excluding the optional `fdcheck` debugging block and the
verbose printing, neither of which touches the solver state.  Returns
the end-of-iteration state together with the break flag: the source
breaks when `normgrad < tol`, when `normdx < tol_normdx`, or when
`residual_increased` was set (lines 181-189).  The `np.isfinite` guard
of lines 153-158 only prints and saves diagnostics, so the judgement
`dxfinite` is bound and then unused, exactly as the source's control
flow ignores it. -/
def gnIter (f : Vec → Vec) (F : Vec → Mat)
    (gnsolver : Mat → Vec → Vec × List ℚ)
    (trajectory : Vec → Vec → ℚ → Except Unit Vec)
    (nrm : Vec → ℚ) (dxfinite : Vec → Bool)
    (tol tol_normdx : ℚ) (x grad : Vec) (it : ℕ) :
    Except GnError (GnState × Bool) :=
  let f_eval := f x
  let F_eval := F x
  let dx0 := (gnsolver F_eval f_eval).1
  let s := (gnsolver F_eval f_eval).2
  let _finite_check := dxfinite dx0
  let _cond := s.headD 0 / s.getLastD 0
  let dx := gnDirection grad dx0
  match lnsrch_armijo (fun y => Except.ok (nrm (f y))) grad dx x
      (1/2) (1/10000) 40 trajectory with
  | Except.error LnsrchError.invalidDirection => Except.error GnError.invalidDirection
  | Except.error LnsrchError.badStep => Except.error GnError.badStep
  | Except.ok (x_new, _alpha, f_eval_new) =>
    let x' := if nrm f_eval ≤ f_eval_new then x else x_new
    let grad' := matTvec (F x') (f x')
    Except.ok
      ({ x := x', grad := grad', normgrad := nrm grad', normdx := nrm dx,
         fEvalNew := f_eval_new, normfEval := nrm f_eval, it := it },
       decide (nrm grad' < tol) || decide (nrm dx < tol_normdx)
         || decide (nrm f_eval ≤ f_eval_new))

/-- The outer iteration of `gn` (`for it in range(maxiter)`, lines
133-189).  `rem` counts the iterations remaining after the current one,
so the whole loop is `gnLoop ... (maxiter - 1) 0 x0 grad0`. -/
def gnLoop (f : Vec → Vec) (F : Vec → Mat)
    (gnsolver : Mat → Vec → Vec × List ℚ)
    (trajectory : Vec → Vec → ℚ → Except Unit Vec)
    (nrm : Vec → ℚ) (dxfinite : Vec → Bool) (tol tol_normdx : ℚ) :
    ℕ → ℕ → Vec → Vec → Except GnError GnState
  | 0, it, x, grad =>
    match gnIter f F gnsolver trajectory nrm dxfinite tol tol_normdx x grad it with
    | Except.error e => Except.error e
    | Except.ok (st, _) => Except.ok st
  | rem + 1, it, x, grad =>
    match gnIter f F gnsolver trajectory nrm dxfinite tol tol_normdx x grad it with
    | Except.error e => Except.error e
    | Except.ok (st, brk) =>
      if brk then Except.ok st
      else gnLoop f F gnsolver trajectory nrm dxfinite tol tol_normdx rem (it + 1) st.x st.grad

/-- The rescaled gradient tolerance of line 131:
`tol = max(tol*normgrad, 1e-14)`. -/
def gnTol (tol normgrad0 : ℚ) : ℚ :=
  max (tol * normgrad0) (1 / 100000000000000)

/-- The post-loop termination classification of `gn` (src/mor/opt/gn.py
lines 191-208), evaluated on the loop state at exit, in the source's
priority order: code 0 when `normgrad <= tol`, else 1 when
`normdx <= tol_normdx`, else 2 when `it == maxiter - 1`, else 3 when
`f_eval_new >= np.linalg.norm(f_eval)`, and otherwise the
`raise Exception('Stopping criteria not determined!')` branch. -/
def gnClassify (st : GnState) (tol tol_normdx : ℚ) (maxiter : ℕ) :
    Except GnError (Vec × ℕ) :=
  if st.normgrad ≤ tol then Except.ok (st.x, 0)
  else if st.normdx ≤ tol_normdx then Except.ok (st.x, 1)
  else if st.it = maxiter - 1 then Except.ok (st.x, 2)
  else if st.normfEval ≤ st.fEvalNew then Except.ok (st.x, 3)
  else Except.error GnError.stoppingCriteria

/-- Embedding of `gn` (src/mor/opt/gn.py lines 69-210).  `maxiter <= 0`
returns `(x0, 4)` immediately (line 114; the ℕ-typed iteration budget
renders every nonpositive Python int as `0`).  Otherwise the initial
gradient `F(x0).T.dot(f(x0))` fixes the rescaled tolerance, the loop
runs, and the exit state is classified.  The parameters `trajectory`,
`gnsolver`, `nrm` and `dxfinite` embed the source's `trajectory` and
`gnsolver` arguments and the external `np.linalg.norm` and
`np.isfinite` capabilities; the `linesearch` argument is the source's
default `lnsrch_armijo`, applied at line 166 with the objective
`lambda x: np.linalg.norm(f(x))`. -/
def gn (f : Vec → Vec) (F : Vec → Mat) (x0 : Vec) (tol tol_normdx : ℚ)
    (maxiter : ℕ) (trajectory : Vec → Vec → ℚ → Except Unit Vec)
    (gnsolver : Mat → Vec → Vec × List ℚ)
    (nrm : Vec → ℚ) (dxfinite : Vec → Bool) :
    Except GnError (Vec × ℕ) :=
  match maxiter with
  | 0 => Except.ok (x0, 4)
  | m + 1 =>
    let grad0 := matTvec (F x0) (f x0)
    let tol' := gnTol tol (nrm grad0)
    match gnLoop f F gnsolver trajectory nrm dxfinite tol' tol_normdx m 0 x0 grad0 with
    | Except.error e => Except.error e
    | Except.ok st => gnClassify st tol' tol_normdx (m + 1)

/-- The scalar residual `f(x) = x^2` of the specification's zero-Jacobian
end-to-end scenario, as a length-one vector function. -/
def fsq : Vec → Vec := fun v => [v.headD 0 * v.headD 0]

/-- The Jacobian `F(x) = 2x` of the zero-Jacobian scenario, a 1x1
matrix. -/
def Fsq : Vec → Mat := fun v => [[2 * v.headD 0]]

/-- Modelled from the spec: the default direction solver
(`scipy.linalg.lstsq(F_eval, -f_eval, lapack_driver='gelss')`, an
external linear-algebra capability outside this repository's sources),
specialised to 1x1 systems: it returns the minimum-norm least-squares
solution of `min ||A dx + b||` together with the singular values of `A`
in descending order. -/
def solver1x1 : Mat → Vec → Vec × List ℚ := fun A b =>
  let a := (A.headD []).headD 0
  let c := b.headD 0
  if a = 0 then ([0], [0]) else ([-c / a], [|a|])

/-- Modelled from the spec: `np.linalg.norm`, the Euclidean norm, is an
external numpy capability; on vectors of length at most one it equals
the sum of absolute values, which is rational-valued, so this function
is its exact embedding for the one-dimensional concrete runs. -/
def nrm1 : Vec → ℚ := fun v => (v.map (fun t => |t|)).sum

/-- The finiteness judgement `np.all(np.isfinite(dx))` when every entry
is finite: exact rationals always are. -/
def allFiniteTrue : Vec → Bool := fun _ => true

/-- A finiteness judgement reporting every vector as non-finite: models a
direction solver whose output would be flagged by `np.isfinite`. -/
def allFiniteFalse : Vec → Bool := fun _ => false

/-- The dot product of a vector with itself is a sum of squares. -/
lemma npInner_self_nonneg (g : Vec) : 0 ≤ npInner g g := by
  induction g with
  | nil => simp [npInner]
  | cons a t ih =>
    simp only [npInner, List.zipWith_cons_cons, List.sum_cons] at *
    nlinarith [mul_self_nonneg a]

/-- Negating the right argument negates the dot product with itself. -/
lemma npInner_self_map_neg (g : Vec) :
    npInner g (g.map (fun t => -t)) = -npInner g g := by
  induction g with
  | nil => simp [npInner]
  | cons a t ih =>
    simp only [npInner, List.map_cons, List.zipWith_cons_cons, List.sum_cons] at *
    ring_nf
    ring_nf at ih
    linarith

/-- The direction actually handed to the line search by `gn` has
nonpositive inner product with the gradient: either the Gauss-Newton
step already satisfied `np.inner(grad, dx) < 0`, or it was replaced by
`-grad`, whose inner product with `grad` is minus a sum of squares. -/
lemma npInner_gnDirection_nonpos (grad dx : Vec) :
    npInner grad (gnDirection grad dx) ≤ 0 := by
  unfold gnDirection
  split
  · rw [npInner_self_map_neg]
    linarith [npInner_self_nonneg grad]
  · linarith [lt_of_not_le (by assumption : ¬ 0 ≤ npInner grad dx)]

/-- Soundness of an accepted backtracking trial: the returned value is
the objective at the returned point and satisfies the Armijo test at
the returned step length. -/
lemma lnsrchLoop_obj (f : Vec → Except Unit ℚ)
    (traj : Vec → Vec → ℚ → Except Unit Vec) (p x0 : Vec)
    (fx0 dg ftol bt : ℚ) :
    ∀ n alpha x a fx,
      lnsrchLoop f traj p x0 fx0 dg ftol bt n alpha = some (x, a, fx) →
      f x = Except.ok fx ∧ fx < fx0 + a * ftol * dg := by
  intro n
  induction n with
  | zero => intro alpha x a fx h; simp [lnsrchLoop] at h
  | succ k ih =>
    intro alpha x a fx h
    rw [lnsrchLoop] at h
    rcases htr : traj x0 p alpha with e | y
    · simp only [htr] at h
      exact ih _ _ _ _ h
    · simp only [htr] at h
      rcases hf : f y with e | fy
      · simp only [hf] at h
        exact ih _ _ _ _ h
      · simp only [hf] at h
        by_cases hc : fy < fx0 + alpha * ftol * dg
        · rw [if_pos hc] at h
          obtain ⟨rfl, rfl, rfl⟩ : y = x ∧ alpha = a ∧ fy = fx := by
            injection h with h'
            injection h' with h1 h2
            injection h2 with h3 h4
            exact ⟨h1, h3, h4⟩
          exact ⟨hf, hc⟩
        · rw [if_neg hc] at h
          exact ih _ _ _ _ h

/-- The accepted step length stays in `(0, 1]` when the backtracking
factor does and the loop starts from a step length in `(0, 1]`. -/
lemma lnsrchLoop_alpha (f : Vec → Except Unit ℚ)
    (traj : Vec → Vec → ℚ → Except Unit Vec) (p x0 : Vec)
    (fx0 dg ftol bt : ℚ) (hb0 : 0 < bt) (hb1 : bt ≤ 1) :
    ∀ n alpha x a fx, 0 < alpha → alpha ≤ 1 →
      lnsrchLoop f traj p x0 fx0 dg ftol bt n alpha = some (x, a, fx) →
      0 < a ∧ a ≤ 1 := by
  intro n
  induction n with
  | zero => intro alpha x a fx _ _ h; simp [lnsrchLoop] at h
  | succ k ih =>
    intro alpha x a fx h0 h1 h
    have hrec0 : 0 < alpha * bt := mul_pos h0 hb0
    have hrec1 : alpha * bt ≤ 1 := by nlinarith
    rw [lnsrchLoop] at h
    rcases htr : traj x0 p alpha with e | y
    · simp only [htr] at h
      exact ih _ _ _ _ hrec0 hrec1 h
    · simp only [htr] at h
      rcases hf : f y with e | fy
      · simp only [hf] at h
        exact ih _ _ _ _ hrec0 hrec1 h
      · simp only [hf] at h
        by_cases hc : fy < fx0 + alpha * ftol * dg
        · rw [if_pos hc] at h
          obtain ⟨-, rfl, -⟩ : y = x ∧ alpha = a ∧ fy = fx := by
            injection h with h'
            injection h' with ha hb
            injection hb with hb1 hb2
            exact ⟨ha, hb1, hb2⟩
          exact ⟨h0, h1⟩
        · rw [if_neg hc] at h
          exact ih _ _ _ _ hrec0 hrec1 h

/-- When the supplied direction is not strictly ascending
(`np.inner(g, p) <= 0`) and the initial objective evaluation does not
raise, `lnsrch_armijo` always returns normally: `BadStep` exceptions
inside the loop are caught, and the exhausted-budget path returns
`(x0, 0, fx0)` rather than raising. -/
lemma lnsrch_armijo_ok (f : Vec → Except Unit ℚ) (g p x0 : Vec)
    (bt ftol : ℚ) (maxiter : ℕ)
    (traj : Vec → Vec → ℚ → Except Unit Vec) (v : ℚ)
    (hdg : ¬ 0 < npInner g p) (hf : f x0 = Except.ok v) :
    ∃ r, lnsrch_armijo f g p x0 bt ftol maxiter traj = Except.ok r := by
  unfold lnsrch_armijo
  simp only [if_neg hdg, hf]
  rcases h : lnsrchLoop f traj p x0 v (npInner g p) ftol bt maxiter 1 with - | r
  · simp only [h]
    exact ⟨(x0, 0, v), rfl⟩
  · simp only [h]
    exact ⟨r, rfl⟩

/-- The value returned by `lnsrch_armijo` is the objective at the
returned point, whenever the objective is total. -/
lemma lnsrch_armijo_obj_val (f : Vec → Except Unit ℚ) (ofn : Vec → ℚ)
    (g p x0 : Vec) (bt ftol : ℚ) (maxiter : ℕ)
    (traj : Vec → Vec → ℚ → Except Unit Vec) (x : Vec) (a fx : ℚ)
    (hf : ∀ y, f y = Except.ok (ofn y))
    (h : lnsrch_armijo f g p x0 bt ftol maxiter traj = Except.ok (x, a, fx)) :
    fx = ofn x := by
  unfold lnsrch_armijo at h
  by_cases hdg : 0 < npInner g p
  · rw [if_pos hdg] at h
    cases h
  · simp only [if_neg hdg, hf x0] at h
    rcases hl : lnsrchLoop f traj p x0 (ofn x0) (npInner g p) ftol bt maxiter 1
        with - | ⟨y, b, fy⟩
    · simp only [hl] at h
      obtain ⟨rfl, -, rfl⟩ : x0 = x ∧ (0 : ℚ) = a ∧ ofn x0 = fx := by
        injection h with h'
        injection h' with h1 h2
        injection h2 with h3 h4
        exact ⟨h1, h3, h4⟩
      rfl
    · simp only [hl] at h
      have h3 : y = x ∧ b = a ∧ fy = fx := by
        injection h with h'
        injection h' with h1 h2
        injection h2 with h3 h4
        exact ⟨h1, h3, h4⟩
      have hv := (lnsrchLoop_obj f traj p x0 (ofn x0) (npInner g p) ftol bt
        maxiter 1 y b fy hl).1
      rw [hf y] at hv
      injection hv with hv
      rw [← h3.1, ← h3.2.2]
      exact hv.symm

/-- Inversion of one `gn` iteration: a normal return determines every
field of the end-of-iteration state in terms of the line-search result,
and the break flag is the disjunction of the three break conditions of
src/mor/opt/gn.py lines 181-189. -/
lemma gnIter_inv (f : Vec → Vec) (F : Vec → Mat)
    (gnsolver : Mat → Vec → Vec × List ℚ)
    (traj : Vec → Vec → ℚ → Except Unit Vec)
    (nrm : Vec → ℚ) (dxf : Vec → Bool) (tol tolndx : ℚ)
    (x grad : Vec) (it : ℕ) (st : GnState) (brk : Bool)
    (h : gnIter f F gnsolver traj nrm dxf tol tolndx x grad it
      = Except.ok (st, brk)) :
    ∃ x_new a f_eval_new,
      lnsrch_armijo (fun y => Except.ok (nrm (f y))) grad
          (gnDirection grad (gnsolver (F x) (f x)).1) x (1/2) (1/10000) 40 traj
        = Except.ok (x_new, a, f_eval_new) ∧
      st.x = (if nrm (f x) ≤ f_eval_new then x else x_new) ∧
      st.grad = matTvec (F st.x) (f st.x) ∧
      st.normgrad = nrm st.grad ∧
      st.normdx = nrm (gnDirection grad (gnsolver (F x) (f x)).1) ∧
      st.fEvalNew = f_eval_new ∧
      st.normfEval = nrm (f x) ∧
      st.it = it ∧
      brk = (decide (st.normgrad < tol) || decide (st.normdx < tolndx)
        || decide (nrm (f x) ≤ f_eval_new)) := by
  simp only [gnIter] at h
  rcases hls : lnsrch_armijo (fun y => Except.ok (nrm (f y))) grad
      (gnDirection grad (gnsolver (F x) (f x)).1) x (1/2) (1/10000) 40 traj
    with e | ⟨x_new, a, f_eval_new⟩
  · cases e <;> simp only [hls] at h <;> cases h
  · simp only [hls] at h
    injection h with h'
    injection h' with h1 h2
    subst h1
    subst h2
    exact ⟨x_new, a, f_eval_new, rfl, rfl, rfl, rfl, rfl, rfl, rfl, rfl, rfl⟩

/-- One `gn` iteration always returns normally: the direction handed to
the line search is never strictly ascending, and the objective
`lambda x: np.linalg.norm(f(x))` is total. -/
lemma gnIter_ok (f : Vec → Vec) (F : Vec → Mat)
    (gnsolver : Mat → Vec → Vec × List ℚ)
    (traj : Vec → Vec → ℚ → Except Unit Vec)
    (nrm : Vec → ℚ) (dxf : Vec → Bool) (tol tolndx : ℚ)
    (x grad : Vec) (it : ℕ) :
    ∃ st brk, gnIter f F gnsolver traj nrm dxf tol tolndx x grad it
      = Except.ok (st, brk) := by
  obtain ⟨r, hr⟩ := lnsrch_armijo_ok (fun y => Except.ok (nrm (f y))) grad
    (gnDirection grad (gnsolver (F x) (f x)).1) x (1/2) (1/10000) 40 traj
    (nrm (f x))
    (not_lt.mpr (npInner_gnDirection_nonpos grad (gnsolver (F x) (f x)).1))
    rfl
  obtain ⟨x_new, a, f_eval_new⟩ := r
  rcases hg : gnIter f F gnsolver traj nrm dxf tol tolndx x grad it
    with e | ⟨st, brk⟩
  · simp only [gnIter, hr] at hg
    cases hg
  · exact ⟨st, brk, rfl⟩

/-- Non-increase of the residual norm across one iteration: either the
iterate is retained, or it is replaced by the line-search point, whose
objective value is strictly below the current residual norm. -/
lemma gnIter_mono (f : Vec → Vec) (F : Vec → Mat)
    (gnsolver : Mat → Vec → Vec × List ℚ)
    (traj : Vec → Vec → ℚ → Except Unit Vec)
    (nrm : Vec → ℚ) (dxf : Vec → Bool) (tol tolndx : ℚ)
    (x grad : Vec) (it : ℕ) (st : GnState) (brk : Bool)
    (h : gnIter f F gnsolver traj nrm dxf tol tolndx x grad it
      = Except.ok (st, brk)) :
    nrm (f st.x) ≤ nrm (f x) := by
  obtain ⟨x_new, a, fev, hls, hx, -, -, -, -, -, -, -⟩ :=
    gnIter_inv f F gnsolver traj nrm dxf tol tolndx x grad it st brk h
  by_cases hc : nrm (f x) ≤ fev
  · rw [hx, if_pos hc]
  · rw [hx, if_neg hc]
    have hval : fev = nrm (f x_new) :=
      lnsrch_armijo_obj_val (fun y => Except.ok (nrm (f y)))
        (fun y => nrm (f y)) grad
        (gnDirection grad (gnsolver (F x) (f x)).1) x (1/2) (1/10000) 40 traj
        x_new a fev (fun y => rfl) hls
    rw [← hval]
    exact le_of_lt (not_le.mp hc)

/-- When the line-search value does not strictly decrease the residual
norm, the iterate is retained and the break flag is set
(src/mor/opt/gn.py lines 168-169 and 187-189). -/
lemma gnIter_retain (f : Vec → Vec) (F : Vec → Mat)
    (gnsolver : Mat → Vec → Vec × List ℚ)
    (traj : Vec → Vec → ℚ → Except Unit Vec)
    (nrm : Vec → ℚ) (dxf : Vec → Bool) (tol tolndx : ℚ)
    (x grad : Vec) (it : ℕ) (st : GnState) (brk : Bool)
    (h : gnIter f F gnsolver traj nrm dxf tol tolndx x grad it
      = Except.ok (st, brk))
    (hge : nrm (f x) ≤ st.fEvalNew) : st.x = x ∧ brk = true := by
  obtain ⟨x_new, a, fev, hls, hx, -, -, -, hfe, -, -, hbrk⟩ :=
    gnIter_inv f F gnsolver traj nrm dxf tol tolndx x grad it st brk h
  rw [hfe] at hge
  refine ⟨by rw [hx, if_pos hge], ?_⟩
  rw [hbrk, decide_eq_true hge]
  simp

/-- When the line-search value strictly decreases the residual norm, the
new iterate is adopted and its residual norm is exactly that value. -/
lemma gnIter_adopt (f : Vec → Vec) (F : Vec → Mat)
    (gnsolver : Mat → Vec → Vec × List ℚ)
    (traj : Vec → Vec → ℚ → Except Unit Vec)
    (nrm : Vec → ℚ) (dxf : Vec → Bool) (tol tolndx : ℚ)
    (x grad : Vec) (it : ℕ) (st : GnState) (brk : Bool)
    (h : gnIter f F gnsolver traj nrm dxf tol tolndx x grad it
      = Except.ok (st, brk))
    (hlt : st.fEvalNew < nrm (f x)) : nrm (f st.x) = st.fEvalNew := by
  obtain ⟨x_new, a, fev, hls, hx, -, -, -, hfe, -, -, -⟩ :=
    gnIter_inv f F gnsolver traj nrm dxf tol tolndx x grad it st brk h
  rw [hfe] at hlt ⊢
  rw [hx, if_neg (not_le.mpr hlt)]
  have hval : fev = nrm (f x_new) :=
    lnsrch_armijo_obj_val (fun y => Except.ok (nrm (f y)))
      (fun y => nrm (f y)) grad
      (gnDirection grad (gnsolver (F x) (f x)).1) x (1/2) (1/10000) 40 traj
      x_new a fev (fun y => rfl) hls
  exact hval.symm

/-- The `gn` loop always exits normally. -/
lemma gnLoop_ok (f : Vec → Vec) (F : Vec → Mat)
    (gnsolver : Mat → Vec → Vec × List ℚ)
    (traj : Vec → Vec → ℚ → Except Unit Vec)
    (nrm : Vec → ℚ) (dxf : Vec → Bool) (tol tolndx : ℚ) :
    ∀ rem it x grad, ∃ st,
      gnLoop f F gnsolver traj nrm dxf tol tolndx rem it x grad
        = Except.ok st := by
  intro rem
  induction rem with
  | zero =>
    intro it x grad
    obtain ⟨st, brk, h⟩ := gnIter_ok f F gnsolver traj nrm dxf tol tolndx x grad it
    exact ⟨st, by simp only [gnLoop, h]⟩
  | succ rem' ih =>
    intro it x grad
    obtain ⟨st, brk, h⟩ := gnIter_ok f F gnsolver traj nrm dxf tol tolndx x grad it
    cases brk with
    | true => exact ⟨st, by simp only [gnLoop, h, if_true]⟩
    | false =>
      obtain ⟨st', h'⟩ := ih (it + 1) st.x st.grad
      exact ⟨st', by simp only [gnLoop, h, Bool.false_eq_true, if_false]; exact h'⟩

/-- The residual norm of the exit iterate never exceeds that of the
entry iterate. -/
lemma gnLoop_mono (f : Vec → Vec) (F : Vec → Mat)
    (gnsolver : Mat → Vec → Vec × List ℚ)
    (traj : Vec → Vec → ℚ → Except Unit Vec)
    (nrm : Vec → ℚ) (dxf : Vec → Bool) (tol tolndx : ℚ) :
    ∀ rem it x grad st,
      gnLoop f F gnsolver traj nrm dxf tol tolndx rem it x grad
        = Except.ok st →
      nrm (f st.x) ≤ nrm (f x) := by
  intro rem
  induction rem with
  | zero =>
    intro it x grad st h
    simp only [gnLoop] at h
    rcases hi : gnIter f F gnsolver traj nrm dxf tol tolndx x grad it
      with e | ⟨st', brk⟩
    · simp only [hi] at h
      cases h
    · simp only [hi] at h
      injection h with h
      subst h
      exact gnIter_mono f F gnsolver traj nrm dxf tol tolndx x grad it st' brk hi
  | succ rem' ih =>
    intro it x grad st h
    simp only [gnLoop] at h
    rcases hi : gnIter f F gnsolver traj nrm dxf tol tolndx x grad it
      with e | ⟨st', brk⟩
    · simp only [hi] at h
      cases h
    · simp only [hi] at h
      have hstep := gnIter_mono f F gnsolver traj nrm dxf tol tolndx x grad it st' brk hi
      cases brk with
      | true =>
        rw [if_pos rfl] at h
        injection h with h
        subst h
        exact hstep
      | false =>
        rw [if_neg (by simp)] at h
        exact le_trans (ih (it + 1) st'.x st'.grad st h) hstep

/-- At loop exit, either one of the three break conditions held
(strictly, as tested at lines 181-189), or the iteration budget was
exhausted, in which case the final iteration index is `it + rem`. -/
lemma gnLoop_exit (f : Vec → Vec) (F : Vec → Mat)
    (gnsolver : Mat → Vec → Vec × List ℚ)
    (traj : Vec → Vec → ℚ → Except Unit Vec)
    (nrm : Vec → ℚ) (dxf : Vec → Bool) (tol tolndx : ℚ) :
    ∀ rem it x grad st,
      gnLoop f F gnsolver traj nrm dxf tol tolndx rem it x grad
        = Except.ok st →
      st.normgrad < tol ∨ st.normdx < tolndx ∨ st.normfEval ≤ st.fEvalNew
        ∨ st.it = it + rem := by
  intro rem
  induction rem with
  | zero =>
    intro it x grad st h
    simp only [gnLoop] at h
    rcases hi : gnIter f F gnsolver traj nrm dxf tol tolndx x grad it
      with e | ⟨st', brk⟩
    · simp only [hi] at h
      cases h
    · simp only [hi] at h
      injection h with h
      subst h
      obtain ⟨-, -, -, -, -, -, -, -, -, -, hit, -⟩ :=
        gnIter_inv f F gnsolver traj nrm dxf tol tolndx x grad it st' brk hi
      exact Or.inr (Or.inr (Or.inr (by omega)))
  | succ rem' ih =>
    intro it x grad st h
    simp only [gnLoop] at h
    rcases hi : gnIter f F gnsolver traj nrm dxf tol tolndx x grad it
      with e | ⟨st', brk⟩
    · simp only [hi] at h
      cases h
    · simp only [hi] at h
      cases brk with
      | true =>
        rw [if_pos rfl] at h
        injection h with h
        subst h
        obtain ⟨x_new, a, fev, -, -, -, -, -, hfe, hnf, -, hbrk⟩ :=
          gnIter_inv f F gnsolver traj nrm dxf tol tolndx x grad it st' true hi
        have hb : (decide (st'.normgrad < tol) || decide (st'.normdx < tolndx)
            || decide (nrm (f x) ≤ fev)) = true := hbrk.symm
        simp only [Bool.or_eq_true, decide_eq_true_eq] at hb
        rcases hb with (hb | hb) | hb
        · exact Or.inl hb
        · exact Or.inr (Or.inl hb)
        · refine Or.inr (Or.inr (Or.inl ?_))
          rw [hnf, hfe]
          exact hb
      | false =>
        rw [if_neg (by simp)] at h
        rcases ih (it + 1) st'.x st'.grad st h with hb | hb | hb | hb
        · exact Or.inl hb
        · exact Or.inr (Or.inl hb)
        · exact Or.inr (Or.inr (Or.inl hb))
        · exact Or.inr (Or.inr (Or.inr (by omega)))

/-- The classification succeeds whenever one of the four exit predicates
holds, and it returns the exit iterate. -/
lemma gnClassify_ok (st : GnState) (tol tolndx : ℚ) (maxiter : ℕ)
    (hexit : st.normgrad ≤ tol ∨ st.normdx ≤ tolndx ∨ st.it = maxiter - 1
      ∨ st.normfEval ≤ st.fEvalNew) :
    ∃ info, gnClassify st tol tolndx maxiter = Except.ok (st.x, info) := by
  unfold gnClassify
  by_cases h0 : st.normgrad ≤ tol
  · exact ⟨0, by rw [if_pos h0]⟩
  · rw [if_neg h0]
    by_cases h1 : st.normdx ≤ tolndx
    · exact ⟨1, by rw [if_pos h1]⟩
    · rw [if_neg h1]
      by_cases h2 : st.it = maxiter - 1
      · exact ⟨2, by rw [if_pos h2]⟩
      · rw [if_neg h2]
        by_cases h3 : st.normfEval ≤ st.fEvalNew
        · exact ⟨3, by rw [if_pos h3]⟩
        · rcases hexit with h | h | h | h
          · exact absurd h h0
          · exact absurd h h1
          · exact absurd h h2
          · exact absurd h h3

/-- A successful classification always returns the exit iterate as the
point. -/
lemma gnClassify_x (st : GnState) (tol tolndx : ℚ) (maxiter : ℕ)
    (xf : Vec) (info : ℕ)
    (h : gnClassify st tol tolndx maxiter = Except.ok (xf, info)) :
    xf = st.x := by
  unfold gnClassify at h
  by_cases h0 : st.normgrad ≤ tol
  · rw [if_pos h0] at h
    injection h with h
    injection h with h1 h2
    exact h1.symm
  · rw [if_neg h0] at h
    by_cases h1 : st.normdx ≤ tolndx
    · rw [if_pos h1] at h
      injection h with h
      injection h with ha hb
      exact ha.symm
    · rw [if_neg h1] at h
      by_cases h2 : st.it = maxiter - 1
      · rw [if_pos h2] at h
        injection h with h
        injection h with ha hb
        exact ha.symm
      · rw [if_neg h2] at h
        by_cases h3 : st.normfEval ≤ st.fEvalNew
        · rw [if_pos h3] at h
          injection h with h
          injection h with ha hb
          exact ha.symm
        · rw [if_neg h3] at h
          cases h

/-- For a positive iteration budget, `gn` is the classification of the
state in which `gnLoop` exits. -/
lemma gn_eq_classify (f : Vec → Vec) (F : Vec → Mat) (x0 : Vec)
    (tol tolndx : ℚ) (m : ℕ)
    (traj : Vec → Vec → ℚ → Except Unit Vec)
    (gnsolver : Mat → Vec → Vec × List ℚ)
    (nrm : Vec → ℚ) (dxf : Vec → Bool) (st : GnState)
    (hloop : gnLoop f F gnsolver traj nrm dxf
        (gnTol tol (nrm (matTvec (F x0) (f x0)))) tolndx m 0 x0
        (matTvec (F x0) (f x0)) = Except.ok st) :
    gn f F x0 tol tolndx (m + 1) traj gnsolver nrm dxf
      = gnClassify st (gnTol tol (nrm (matTvec (F x0) (f x0)))) tolndx (m + 1) := by
  simp only [gn, hloop]

/-- Evaluation of the internal line search of `gn` on the zero-Jacobian
scenario: gradient and direction are both zero, so the strict Armijo
test `0 < 0` fails on all `40` trials and the search reports failure
with `alpha = 0` and the point unchanged. -/
lemma lnsrch_fsq_eval :
    lnsrch_armijo (fun y => Except.ok (nrm1 (fsq y))) [0] [0] [0]
      (1/2) (1/10000) 40 defaultTrajectory = Except.ok ([0], 0, 0) := by
  norm_num [lnsrch_armijo, lnsrchLoop, defaultTrajectory, npInner, nrm1, fsq]

/-- One `gn` iteration on the zero-Jacobian scenario: the solver returns
`dx = [0]`, the fallback fires (`np.inner(grad, dx) = 0 >= 0`), the line
search fails softly, the iterate is retained, and the break flag is set
because the residual did not decrease. -/
lemma gnIter_fsq_eval (dxf : Vec → Bool) (tol tolndx : ℚ) (it : ℕ) :
    gnIter fsq Fsq solver1x1 defaultTrajectory nrm1 dxf tol tolndx [0] [0] it =
      Except.ok ((⟨[0], [0], 0, 0, 0, 0, it⟩ : GnState), true) := by
  have h1 : (solver1x1 (Fsq [0]) (fsq [0])).1 = [0] := by
    norm_num [solver1x1, Fsq, fsq]
  have h2 : gnDirection [0] [0] = [0] := by
    norm_num [gnDirection, npInner]
  simp only [gnIter]
  rw [h1, h2, lnsrch_fsq_eval]
  norm_num [matTvec, Fsq, fsq, nrm1, npInner]

/-- The `gn` loop on the zero-Jacobian scenario stops after its first
iteration, whatever the remaining budget. -/
lemma gnLoop_fsq_eval (dxf : Vec → Bool) (tol tolndx : ℚ) (rem it : ℕ) :
    gnLoop fsq Fsq solver1x1 defaultTrajectory nrm1 dxf tol tolndx rem it [0] [0] =
      Except.ok (⟨[0], [0], 0, 0, 0, 0, it⟩ : GnState) := by
  cases rem with
  | zero => simp only [gnLoop, gnIter_fsq_eval]
  | succ rem' => simp only [gnLoop, gnIter_fsq_eval, if_true]

/-- Full run of `gn` on the zero-Jacobian scenario, for any positive
iteration budget, any gradient tolerance, any step tolerance and any
finiteness judgement: the zero gradient is below the rescaled tolerance
floor `1e-14`, so the run classifies as `info = 0` (converged) with the
initial point returned. -/
lemma gn_fsq_eval (dxf : Vec → Bool) (tol0 tolndx : ℚ) (m : ℕ) :
    gn fsq Fsq [0] tol0 tolndx (m + 1) defaultTrajectory solver1x1 nrm1 dxf =
      Except.ok ([0], 0) := by
  have hg : matTvec (Fsq [0]) (fsq [0]) = [0] := by
    norm_num [matTvec, Fsq, fsq, npInner]
  have h0 : (0 : ℚ) ≤ gnTol tol0 (nrm1 [0]) := by
    unfold gnTol
    exact le_trans (by norm_num) (le_max_right _ _)
  simp only [gn, hg, gnLoop_fsq_eval, gnClassify]
  rw [if_pos h0]

/-- The only error the classification can produce is the fall-through
stopping-criteria error. -/
lemma gnClassify_error_eq (st : GnState) (tol tolndx : ℚ) (maxiter : ℕ)
    (e : GnError) (h : gnClassify st tol tolndx maxiter = Except.error e) :
    e = GnError.stoppingCriteria := by
  unfold gnClassify at h
  split at h
  · cases h
  · split at h
    · cases h
    · split at h
      · cases h
      · split at h
        · cases h
        · injection h with h
          exact h.symm

/-- The only error `gn` can produce is the fall-through
stopping-criteria error: the loop itself always returns normally. -/
lemma gn_error_eq (f : Vec → Vec) (F : Vec → Mat) (x0 : Vec)
    (tol tolndx : ℚ) (maxiter : ℕ)
    (traj : Vec → Vec → ℚ → Except Unit Vec)
    (gnsolver : Mat → Vec → Vec × List ℚ)
    (nrm : Vec → ℚ) (dxf : Vec → Bool) (e : GnError)
    (h : gn f F x0 tol tolndx maxiter traj gnsolver nrm dxf = Except.error e) :
    e = GnError.stoppingCriteria := by
  cases maxiter with
  | zero =>
    have h' : (Except.ok (x0, 4) : Except GnError (Vec × ℕ)) = Except.error e := h
    cases h'
  | succ m =>
    obtain ⟨st, hst⟩ := gnLoop_ok f F gnsolver traj nrm dxf
      (gnTol tol (nrm (matTvec (F x0) (f x0)))) tolndx m 0 x0
      (matTvec (F x0) (f x0))
    rw [gn_eq_classify f F x0 tol tolndx m traj gnsolver nrm dxf st hst] at h
    exact gnClassify_error_eq st _ tolndx (m + 1) e h

/-- One iteration is insensitive to the two purely observational inputs:
the singular values returned by the direction solver (consumed only by
the conditioning diagnostic) and the finiteness judgement (consumed only
by the diagnostic printing branch). -/
lemma gnIter_obs_irrel (f : Vec → Vec) (F : Vec → Mat)
    (s1 s2 : Mat → Vec → Vec × List ℚ)
    (h : ∀ A b, (s1 A b).1 = (s2 A b).1)
    (traj : Vec → Vec → ℚ → Except Unit Vec)
    (nrm : Vec → ℚ) (dxf dxf' : Vec → Bool) (tol tolndx : ℚ)
    (x grad : Vec) (it : ℕ) :
    gnIter f F s1 traj nrm dxf tol tolndx x grad it
      = gnIter f F s2 traj nrm dxf' tol tolndx x grad it := by
  simp only [gnIter, h (F x) (f x)]

/-- The loop is insensitive to singular values and finiteness
judgements. -/
lemma gnLoop_obs_irrel (f : Vec → Vec) (F : Vec → Mat)
    (s1 s2 : Mat → Vec → Vec × List ℚ)
    (h : ∀ A b, (s1 A b).1 = (s2 A b).1)
    (traj : Vec → Vec → ℚ → Except Unit Vec)
    (nrm : Vec → ℚ) (dxf dxf' : Vec → Bool) (tol tolndx : ℚ) :
    ∀ rem it x grad,
      gnLoop f F s1 traj nrm dxf tol tolndx rem it x grad
        = gnLoop f F s2 traj nrm dxf' tol tolndx rem it x grad := by
  intro rem
  induction rem with
  | zero =>
    intro it x grad
    simp only [gnLoop, gnIter_obs_irrel f F s1 s2 h traj nrm dxf dxf' tol tolndx]
  | succ rem' ih =>
    intro it x grad
    simp only [gnLoop, gnIter_obs_irrel f F s1 s2 h traj nrm dxf dxf' tol tolndx, ih]

/-- The whole solver is insensitive to singular values and finiteness
judgements. -/
lemma gn_obs_irrel (f : Vec → Vec) (F : Vec → Mat) (x0 : Vec)
    (tol tolndx : ℚ) (maxiter : ℕ)
    (traj : Vec → Vec → ℚ → Except Unit Vec)
    (s1 s2 : Mat → Vec → Vec × List ℚ)
    (h : ∀ A b, (s1 A b).1 = (s2 A b).1)
    (nrm : Vec → ℚ) (dxf dxf' : Vec → Bool) :
    gn f F x0 tol tolndx maxiter traj s1 nrm dxf
      = gn f F x0 tol tolndx maxiter traj s2 nrm dxf' := by
  cases maxiter with
  | zero => rfl
  | succ m =>
    simp only [gn, gnLoop_obs_irrel f F s1 s2 h traj nrm dxf dxf' _ tolndx]

/-- A trajectory evaluator that rejects every candidate step: models a
trajectory function raising `BadStep` on each trial. -/
def trajBad : Vec → Vec → ℚ → Except Unit Vec := fun _ _ _ => Except.error ()

/-- C1: for every objective, gradient `g`, direction `p` with
`inner(g, p) < 0`, and starting point with a finite objective value,
`lnsrch_armijo` either returns a step length in `(0, 1]` together with a
point whose objective value is strictly below the starting value, or
returns step length `0` with the original point and original objective
value; no other outcome is possible.  (Proved for every backtracking
factor in `(0, 1]` and every positive sufficient-decrease coefficient,
which covers the source defaults `0.5` and `1e-4`.) -/
theorem lnsrch_armijo_descent_outcome
    (f : Vec → Except Unit ℚ) (g p x0 : Vec) (bt ftol : ℚ) (maxiter : ℕ)
    (traj : Vec → Vec → ℚ → Except Unit Vec) (fx0 : ℚ)
    (hdg : npInner g p < 0) (hb0 : 0 < bt) (hb1 : bt ≤ 1) (hftol : 0 < ftol)
    (hfx0 : f x0 = Except.ok fx0) :
    ∃ x a fx,
      lnsrch_armijo f g p x0 bt ftol maxiter traj = Except.ok (x, a, fx) ∧
        ((0 < a ∧ a ≤ 1 ∧ f x = Except.ok fx ∧ fx < fx0) ∨
          (a = 0 ∧ x = x0 ∧ fx = fx0)) := by
  unfold lnsrch_armijo
  simp only [if_neg (asymm hdg), hfx0]
  rcases hl : lnsrchLoop f traj p x0 fx0 (npInner g p) ftol bt maxiter 1
    with - | ⟨y, b, fy⟩
  · exact ⟨x0, 0, fx0, rfl, Or.inr ⟨rfl, rfl, rfl⟩⟩
  · obtain ⟨hobj, harm⟩ := lnsrchLoop_obj f traj p x0 fx0 (npInner g p)
      ftol bt maxiter 1 y b fy hl
    obtain ⟨ha0, ha1⟩ := lnsrchLoop_alpha f traj p x0 fx0 (npInner g p)
      ftol bt hb0 hb1 maxiter 1 y b fy one_pos (le_refl 1) hl
    refine ⟨y, b, fy, rfl, Or.inl ⟨ha0, ha1, hobj, ?_⟩⟩
    have hneg : b * ftol * npInner g p < 0 :=
      mul_neg_of_pos_of_neg (mul_pos ha0 hftol) hdg
    linarith

/-- Witness for C1 at the concrete descent instance `g = [1]`,
`p = [-1]`, `x0 = [0]`, objective the first coordinate. -/
theorem lnsrch_armijo_descent_outcome_witness :
    npInner [1] [-1] < 0 ∧
      (∃ x a fx,
        lnsrch_armijo (fun v => Except.ok (v.headD 0)) [1] [-1] [0]
            (1/2) (1/10000) 40 defaultTrajectory = Except.ok (x, a, fx) ∧
          ((0 < a ∧ a ≤ 1 ∧ (fun v : Vec => (Except.ok (v.headD 0) :
              Except Unit ℚ)) x = Except.ok fx ∧ fx < 0) ∨
            (a = 0 ∧ x = [0] ∧ fx = 0))) :=
  ⟨by norm_num [npInner],
    lnsrch_armijo_descent_outcome (fun v => Except.ok (v.headD 0))
      [1] [-1] [0] (1/2) (1/10000) 40 defaultTrajectory 0
      (by norm_num [npInner]) (by norm_num) (by norm_num) (by norm_num) rfl⟩

/-- Counterexample to C4 as stated: at `g = [0]`, `p = [1]` the inner
product is `0`, so the claim demands an `InvalidDirection` error, but
the call returns normally (with the soft-failure triple), because the
source raises only on a strictly positive inner product
(src/mor/opt/gn.py line 40: `if dg > 0`). -/
theorem lnsrch_zero_inner_no_raise_cex :
    (0 : ℚ) ≤ npInner [0] [1] ∧
      lnsrch_armijo (fun _ => Except.ok 0) [0] [1] [0] (1/2) (1/10000) 40
        defaultTrajectory = Except.ok ([0], 0, 0) :=
  ⟨by norm_num [npInner],
    by norm_num [lnsrch_armijo, lnsrchLoop, defaultTrajectory, npInner]⟩

/-- C4 (amended): `lnsrch_armijo` raises its `InvalidDirection` error
exactly when `inner(g, p) > 0` strictly; at `inner(g, p) = 0` — in
particular for any direction when the gradient is the zero vector — the
call proceeds with the search instead of raising. -/
theorem lnsrch_invalid_direction_iff
    (f : Vec → Except Unit ℚ) (g p x0 : Vec) (bt ftol : ℚ) (maxiter : ℕ)
    (traj : Vec → Vec → ℚ → Except Unit Vec) :
    lnsrch_armijo f g p x0 bt ftol maxiter traj
        = Except.error LnsrchError.invalidDirection ↔ 0 < npInner g p := by
  constructor
  · intro h
    by_contra hdg
    unfold lnsrch_armijo at h
    rw [if_neg hdg] at h
    rcases hf : f x0 with e | v
    · simp only [hf] at h
      injection h with h
      cases h
    · simp only [hf] at h
      rcases hl : lnsrchLoop f traj p x0 v (npInner g p) ftol bt maxiter 1
        with - | r
      · simp only [hl] at h
        cases h
      · simp only [hl] at h
        cases h
  · intro h
    unfold lnsrch_armijo
    rw [if_pos h]

/-- C7: a `BadStep` signalled by a step evaluation — whether by the
trajectory function or by the objective on the candidate — is caught
inside the backtracking loop and treated exactly like a failed Armijo
trial (the step length is multiplied by the backtracking factor and the
loop continues with one fewer trial), and, whenever the preconditions
of the search hold, no exception reaches the caller. -/
theorem lnsrch_badstep_recovery :
    (∀ (f : Vec → Except Unit ℚ)
        (traj : Vec → Vec → ℚ → Except Unit Vec) (p x0 : Vec)
        (fx0 dg ftol bt : ℚ) (n : ℕ) (alpha : ℚ) (e : Unit),
        traj x0 p alpha = Except.error e →
        lnsrchLoop f traj p x0 fx0 dg ftol bt (n + 1) alpha
          = lnsrchLoop f traj p x0 fx0 dg ftol bt n (alpha * bt)) ∧
    (∀ (f : Vec → Except Unit ℚ)
        (traj : Vec → Vec → ℚ → Except Unit Vec) (p x0 : Vec)
        (fx0 dg ftol bt : ℚ) (n : ℕ) (alpha : ℚ) (y : Vec) (e : Unit),
        traj x0 p alpha = Except.ok y → f y = Except.error e →
        lnsrchLoop f traj p x0 fx0 dg ftol bt (n + 1) alpha
          = lnsrchLoop f traj p x0 fx0 dg ftol bt n (alpha * bt)) ∧
    (∀ (f : Vec → Except Unit ℚ) (g p x0 : Vec) (bt ftol : ℚ) (n : ℕ)
        (traj : Vec → Vec → ℚ → Except Unit Vec) (v : ℚ),
        ¬ 0 < npInner g p → f x0 = Except.ok v →
        ∃ r, lnsrch_armijo f g p x0 bt ftol n traj = Except.ok r) := by
  refine ⟨?_, ?_, ?_⟩
  · intro f traj p x0 fx0 dg ftol bt n alpha e h
    rw [lnsrchLoop]
    simp only [h]
  · intro f traj p x0 fx0 dg ftol bt n alpha y e htr hf
    rw [lnsrchLoop]
    simp only [htr, hf]
  · intro f g p x0 bt ftol n traj v hdg hf
    exact lnsrch_armijo_ok f g p x0 bt ftol n traj v hdg hf

/-- Witness for C7: a trajectory rejecting every candidate, and an
objective rejecting every candidate, each make one loop pass behave as a
backtracking step, and a full search against the rejecting trajectory
still returns normally. -/
theorem lnsrch_badstep_recovery_witness :
    trajBad [0] [1] 1 = Except.error () ∧
    lnsrchLoop (fun _ => Except.ok 0) trajBad [1] [0] 0 0 (1/10000) (1/2) 3 1
      = lnsrchLoop (fun _ => Except.ok 0) trajBad [1] [0] 0 0 (1/10000) (1/2) 2
        (1 * (1/2)) ∧
    defaultTrajectory [0] [1] 1 = Except.ok [1] ∧
    lnsrchLoop (fun _ => Except.error ()) defaultTrajectory [1] [0] 0 0
        (1/10000) (1/2) 3 1
      = lnsrchLoop (fun _ => Except.error ()) defaultTrajectory [1] [0] 0 0
        (1/10000) (1/2) 2 (1 * (1/2)) ∧
    ¬ 0 < npInner [0] [1] ∧
    (∃ r, lnsrch_armijo (fun _ => Except.ok 0) [0] [1] [0] (1/2) (1/10000) 40
      trajBad = Except.ok r) := by
  have htraj : defaultTrajectory [0] [1] 1 = Except.ok [1] := by
    norm_num [defaultTrajectory]
  refine ⟨rfl, ?_, htraj, ?_, by norm_num [npInner], ?_⟩
  · exact lnsrch_badstep_recovery.1 (fun _ => Except.ok 0) trajBad [1] [0]
      0 0 (1/10000) (1/2) 2 1 () rfl
  · exact lnsrch_badstep_recovery.2.1 (fun _ => Except.error ())
      defaultTrajectory [1] [0] 0 0 (1/10000) (1/2) 2 1 [1] () htraj rfl
  · exact lnsrch_badstep_recovery.2.2 (fun _ => Except.ok 0) [0] [1] [0]
      (1/2) (1/10000) 40 trajBad 0 (by norm_num [npInner]) rfl

/-- A direction solver agreeing with `solver1x1` on directions but
reporting the constant singular-value sequence `[1]`. -/
def solverSA : Mat → Vec → Vec × List ℚ := fun A b => ((solver1x1 A b).1, [1])

/-- A direction solver agreeing with `solver1x1` on directions but
reporting the constant singular-value sequence `[5, 2]`. -/
def solverSB : Mat → Vec → Vec × List ℚ := fun A b => ((solver1x1 A b).1, [5, 2])

/-- C8: with a nonpositive iteration budget (`maxiter <= 0`,
nonnegative integers collapse this to budget `0`), `gn` returns the
initial point unchanged with the distinct degenerate code `4`, for
every residual, Jacobian, direction solver, trajectory, norm and
finiteness judgement — so none of them is ever evaluated. -/
theorem gn_maxiter_zero_degenerate
    (f : Vec → Vec) (F : Vec → Mat) (x0 : Vec) (tol tolndx : ℚ)
    (traj : Vec → Vec → ℚ → Except Unit Vec)
    (gnsolver : Mat → Vec → Vec × List ℚ)
    (nrm : Vec → ℚ) (dxf : Vec → Bool) :
    gn f F x0 tol tolndx 0 traj gnsolver nrm dxf = Except.ok (x0, 4) := rfl

/-- C9: two runs of `gn` that differ only in the singular values their
direction solvers report alongside identical directions return the same
point and termination code: the singular values feed only the
conditioning diagnostic. -/
theorem gn_singular_values_irrelevant
    (f : Vec → Vec) (F : Vec → Mat) (x0 : Vec) (tol tolndx : ℚ)
    (maxiter : ℕ) (traj : Vec → Vec → ℚ → Except Unit Vec)
    (nrm : Vec → ℚ) (dxf : Vec → Bool)
    (s1 s2 : Mat → Vec → Vec × List ℚ)
    (h : ∀ A b, (s1 A b).1 = (s2 A b).1) :
    gn f F x0 tol tolndx maxiter traj s1 nrm dxf
      = gn f F x0 tol tolndx maxiter traj s2 nrm dxf :=
  gn_obs_irrel f F x0 tol tolndx maxiter traj s1 s2 h nrm dxf dxf

/-- Witness for C9: the two constant-singular-value solvers produce
identical runs on the zero-Jacobian scenario. -/
theorem gn_singular_values_irrelevant_witness :
    gn fsq Fsq [0] (1/100000) (1/1000000000000) 100 defaultTrajectory
        solverSA nrm1 allFiniteTrue
      = gn fsq Fsq [0] (1/100000) (1/1000000000000) 100 defaultTrajectory
        solverSB nrm1 allFiniteTrue :=
  gn_singular_values_irrelevant fsq Fsq [0] (1/100000) (1/1000000000000) 100
    defaultTrajectory nrm1 allFiniteTrue solverSA solverSB (fun _ _ => rfl)

/-- C10: the direction handed to the internal line search always has
nonpositive inner product with the gradient (the fallback replaces any
non-descent Gauss-Newton step by `-grad`, whose inner product with the
gradient is minus a sum of squares), and since the line search raises
its non-descent error only on a strictly positive inner product, that
error can never escape from `gn` — even at a zero gradient. -/
theorem gn_internal_direction_descent :
    (∀ grad dx : Vec, npInner grad (gnDirection grad dx) ≤ 0) ∧
    (∀ (f : Vec → Vec) (F : Vec → Mat) (x0 : Vec) (tol tolndx : ℚ)
        (maxiter : ℕ) (traj : Vec → Vec → ℚ → Except Unit Vec)
        (gnsolver : Mat → Vec → Vec × List ℚ)
        (nrm : Vec → ℚ) (dxf : Vec → Bool),
        gn f F x0 tol tolndx maxiter traj gnsolver nrm dxf
          ≠ Except.error GnError.invalidDirection) := by
  refine ⟨npInner_gnDirection_nonpos, ?_⟩
  intro f F x0 tol tolndx maxiter traj gnsolver nrm dxf h
  have := gn_error_eq f F x0 tol tolndx maxiter traj gnsolver nrm dxf
    GnError.invalidDirection h
  cases this

/-- Counterexample to C6 as stated: a run in which the finiteness
judgement flags the solver's direction as non-finite at every iteration
still returns normally with a converged point — no
`IllConditionedSystem` error is raised, because the guard's body
(src/mor/opt/gn.py lines 153-158) only prints diagnostics and saves the
system to disk before control falls through. -/
theorem gn_nonfinite_dx_no_error_cex :
    allFiniteFalse (solver1x1 (Fsq [0]) (fsq [0])).1 = false ∧
    gn fsq Fsq [0] (1/100000) (1/1000000000000) 100 defaultTrajectory
        solver1x1 nrm1 allFiniteFalse = Except.ok ([0], 0) ∧
    (Except.ok ([(0 : ℚ)], (0 : ℕ)) : Except GnError (Vec × ℕ))
      ≠ Except.error GnError.illConditionedSystem :=
  ⟨rfl, gn_fsq_eval allFiniteFalse (1/100000) (1/1000000000000) 99, by simp⟩

/-- C6 (amended): the non-finite-direction guard is purely diagnostic —
the result of `gn` is the same under every finiteness judgement, and
`gn` never fails with an `IllConditionedSystem` error; the iteration
continues with the flagged direction. -/
theorem gn_finiteness_guard_no_effect
    (f : Vec → Vec) (F : Vec → Mat) (x0 : Vec) (tol tolndx : ℚ)
    (maxiter : ℕ) (traj : Vec → Vec → ℚ → Except Unit Vec)
    (gnsolver : Mat → Vec → Vec × List ℚ)
    (nrm : Vec → ℚ) (dxf dxf' : Vec → Bool) :
    gn f F x0 tol tolndx maxiter traj gnsolver nrm dxf
      = gn f F x0 tol tolndx maxiter traj gnsolver nrm dxf' ∧
    gn f F x0 tol tolndx maxiter traj gnsolver nrm dxf
      ≠ Except.error GnError.illConditionedSystem := by
  constructor
  · exact gn_obs_irrel f F x0 tol tolndx maxiter traj gnsolver gnsolver
      (fun _ _ => rfl) nrm dxf dxf'
  · intro h
    have := gn_error_eq f F x0 tol tolndx maxiter traj gnsolver nrm dxf
      GnError.illConditionedSystem h
    cases this

/-- C2: the iterate is reassigned only when the line-search value is
strictly below the residual norm at the current iterate; when that
strict decrease fails (including the soft failure `alpha = 0`, whose
returned value equals the unchanged objective), the previous iterate is
retained and the break flag is set, ending the outer loop at the end of
that iteration; consequently the residual norm of adopted iterates never
increases, per iteration and across a whole run. -/
theorem gn_iterate_monotone
    (f : Vec → Vec) (F : Vec → Mat)
    (gnsolver : Mat → Vec → Vec × List ℚ)
    (traj : Vec → Vec → ℚ → Except Unit Vec)
    (nrm : Vec → ℚ) (dxf : Vec → Bool) (tol tolndx : ℚ) :
    (∀ (x grad : Vec) (it : ℕ) (st : GnState) (brk : Bool),
        gnIter f F gnsolver traj nrm dxf tol tolndx x grad it
          = Except.ok (st, brk) →
        (nrm (f x) ≤ st.fEvalNew → st.x = x ∧ brk = true) ∧
        (st.fEvalNew < nrm (f x) →
          nrm (f st.x) = st.fEvalNew ∧ nrm (f st.x) < nrm (f x)) ∧
        nrm (f st.x) ≤ nrm (f x)) ∧
    (∀ (x0 : Vec) (tol0 : ℚ) (maxiter : ℕ) (xf : Vec) (info : ℕ),
        0 < maxiter →
        gn f F x0 tol0 tolndx maxiter traj gnsolver nrm dxf
          = Except.ok (xf, info) →
        nrm (f xf) ≤ nrm (f x0)) := by
  constructor
  · intro x grad it st brk h
    refine ⟨fun hge =>
        gnIter_retain f F gnsolver traj nrm dxf tol tolndx x grad it st brk h hge,
      fun hlt => ?_,
      gnIter_mono f F gnsolver traj nrm dxf tol tolndx x grad it st brk h⟩
    have hadopt :=
      gnIter_adopt f F gnsolver traj nrm dxf tol tolndx x grad it st brk h hlt
    exact ⟨hadopt, by rw [hadopt]; exact hlt⟩
  · intro x0 tol0 maxiter xf info hm h
    cases maxiter with
    | zero => exact absurd hm (lt_irrefl 0)
    | succ m =>
      obtain ⟨st, hst⟩ := gnLoop_ok f F gnsolver traj nrm dxf
        (gnTol tol0 (nrm (matTvec (F x0) (f x0)))) tolndx m 0 x0
        (matTvec (F x0) (f x0))
      rw [gn_eq_classify f F x0 tol0 tolndx m traj gnsolver nrm dxf st hst] at h
      have hx := gnClassify_x st (gnTol tol0 (nrm (matTvec (F x0) (f x0))))
        tolndx (m + 1) xf info h
      rw [hx]
      exact gnLoop_mono f F gnsolver traj nrm dxf
        (gnTol tol0 (nrm (matTvec (F x0) (f x0)))) tolndx m 0 x0
        (matTvec (F x0) (f x0)) st hst

/-- Witness for C2 on the zero-Jacobian scenario: the first iteration
returns with the iterate retained and the break flag set, and the whole
run does not increase the residual norm. -/
theorem gn_iterate_monotone_witness :
    gnIter fsq Fsq solver1x1 defaultTrajectory nrm1 allFiniteTrue
        (1/100000000000000) (1/1000000000000) [0] [0] 0
      = Except.ok ((⟨[0], [0], 0, 0, 0, 0, 0⟩ : GnState), true) ∧
    nrm1 (fsq (⟨[0], [0], 0, 0, 0, 0, 0⟩ : GnState).x) ≤ nrm1 (fsq [0]) ∧
    0 < 100 ∧
    gn fsq Fsq [0] (1/100000) (1/1000000000000) 100 defaultTrajectory
        solver1x1 nrm1 allFiniteTrue = Except.ok ([0], 0) ∧
    nrm1 (fsq [0]) ≤ nrm1 (fsq [0]) := by
  refine ⟨gnIter_fsq_eval allFiniteTrue (1/100000000000000) (1/1000000000000) 0,
    ?_, by norm_num,
    gn_fsq_eval allFiniteTrue (1/100000) (1/1000000000000) 99, ?_⟩
  · exact ((gn_iterate_monotone fsq Fsq solver1x1 defaultTrajectory nrm1
      allFiniteTrue (1/100000000000000) (1/1000000000000)).1 [0] [0] 0
      ⟨[0], [0], 0, 0, 0, 0, 0⟩ true
      (gnIter_fsq_eval allFiniteTrue (1/100000000000000)
        (1/1000000000000) 0)).2.2
  · exact (gn_iterate_monotone fsq Fsq solver1x1 defaultTrajectory nrm1
      allFiniteTrue (1/100000000000000) (1/1000000000000)).2 [0] (1/100000)
      100 [0] 0 (by norm_num)
      (gn_fsq_eval allFiniteTrue (1/100000) (1/1000000000000) 99)

/-- C3: for a positive budget the loop always exits normally, at exit
at least one of the four termination predicates holds (gradient norm at
or below the rescaled tolerance; step norm at or below the step
tolerance; iteration counter equal to `maxiter - 1`; line-search value
at or above the residual norm), the returned code is the source's
priority classification of that state, and in particular the
fall-through internal-consistency branch is unreachable: `gn` returns
normally. -/
theorem gn_termination_classification
    (f : Vec → Vec) (F : Vec → Mat) (x0 : Vec) (tol tolndx : ℚ)
    (maxiter : ℕ) (traj : Vec → Vec → ℚ → Except Unit Vec)
    (gnsolver : Mat → Vec → Vec × List ℚ)
    (nrm : Vec → ℚ) (dxf : Vec → Bool) (hm : 0 < maxiter) :
    ∃ st : GnState,
      gnLoop f F gnsolver traj nrm dxf
          (gnTol tol (nrm (matTvec (F x0) (f x0)))) tolndx (maxiter - 1) 0 x0
          (matTvec (F x0) (f x0)) = Except.ok st ∧
      (st.normgrad ≤ gnTol tol (nrm (matTvec (F x0) (f x0)))
        ∨ st.normdx ≤ tolndx ∨ st.it = maxiter - 1
        ∨ st.normfEval ≤ st.fEvalNew) ∧
      gn f F x0 tol tolndx maxiter traj gnsolver nrm dxf
        = gnClassify st (gnTol tol (nrm (matTvec (F x0) (f x0)))) tolndx
            maxiter ∧
      ∃ info, gn f F x0 tol tolndx maxiter traj gnsolver nrm dxf
        = Except.ok (st.x, info) := by
  cases maxiter with
  | zero => exact absurd hm (lt_irrefl 0)
  | succ m =>
    obtain ⟨st, hst⟩ := gnLoop_ok f F gnsolver traj nrm dxf
      (gnTol tol (nrm (matTvec (F x0) (f x0)))) tolndx m 0 x0
      (matTvec (F x0) (f x0))
    have hexit0 := gnLoop_exit f F gnsolver traj nrm dxf
      (gnTol tol (nrm (matTvec (F x0) (f x0)))) tolndx m 0 x0
      (matTvec (F x0) (f x0)) st hst
    have hexit : st.normgrad ≤ gnTol tol (nrm (matTvec (F x0) (f x0)))
        ∨ st.normdx ≤ tolndx ∨ st.it = (m + 1) - 1
        ∨ st.normfEval ≤ st.fEvalNew := by
      rcases hexit0 with h | h | h | h
      · exact Or.inl (le_of_lt h)
      · exact Or.inr (Or.inl (le_of_lt h))
      · exact Or.inr (Or.inr (Or.inr h))
      · exact Or.inr (Or.inr (Or.inl (by omega)))
    have hgn := gn_eq_classify f F x0 tol tolndx m traj gnsolver nrm dxf st hst
    obtain ⟨info, hinfo⟩ := gnClassify_ok st
      (gnTol tol (nrm (matTvec (F x0) (f x0)))) tolndx (m + 1) hexit
    exact ⟨st, hst, hexit, hgn, info, by rw [hgn, hinfo]⟩

/-- Witness for C3 on the zero-Jacobian scenario with budget 100. -/
theorem gn_termination_classification_witness :
    0 < 100 ∧
    (∃ st : GnState,
      gnLoop fsq Fsq solver1x1 defaultTrajectory nrm1 allFiniteTrue
          (gnTol (1/100000) (nrm1 (matTvec (Fsq [0]) (fsq [0]))))
          (1/1000000000000) (100 - 1) 0 [0]
          (matTvec (Fsq [0]) (fsq [0])) = Except.ok st ∧
      (st.normgrad ≤ gnTol (1/100000) (nrm1 (matTvec (Fsq [0]) (fsq [0])))
        ∨ st.normdx ≤ (1/1000000000000 : ℚ) ∨ st.it = 100 - 1
        ∨ st.normfEval ≤ st.fEvalNew) ∧
      gn fsq Fsq [0] (1/100000) (1/1000000000000) 100 defaultTrajectory
          solver1x1 nrm1 allFiniteTrue
        = gnClassify st (gnTol (1/100000) (nrm1 (matTvec (Fsq [0]) (fsq [0]))))
            (1/1000000000000) 100 ∧
      ∃ info, gn fsq Fsq [0] (1/100000) (1/1000000000000) 100
          defaultTrajectory solver1x1 nrm1 allFiniteTrue
        = Except.ok (st.x, info)) :=
  ⟨by norm_num,
    gn_termination_classification fsq Fsq [0] (1/100000) (1/1000000000000)
      100 defaultTrajectory solver1x1 nrm1 allFiniteTrue (by norm_num)⟩

/-- Counterexample to C5 as stated: on the zero-Jacobian scenario
(`f(x) = x^2`, `F(x) = 2x`, `x0 = 0`) the run returns termination code
`0` (Converged) — not the step-size code `1` and not the no-progress
code `3` — because the zero gradient already sits below the rescaled
tolerance floor `1e-14`. -/
theorem gn_zero_jacobian_code_cex :
    gn fsq Fsq [0] (1/100000) (1/1000000000000) 100 defaultTrajectory
        solver1x1 nrm1 allFiniteTrue = Except.ok ([0], 0) ∧
    (Except.ok ([(0 : ℚ)], (0 : ℕ)) : Except GnError (Vec × ℕ))
      ≠ Except.ok ([(0 : ℚ)], 1) ∧
    (Except.ok ([(0 : ℚ)], (0 : ℕ)) : Except GnError (Vec × ℕ))
      ≠ Except.ok ([(0 : ℚ)], 3) :=
  ⟨gn_fsq_eval allFiniteTrue (1/100000) (1/1000000000000) 99,
    by simp, by simp⟩

/-- C5 (amended): on the zero-Jacobian scenario the fallback branch is
taken (`np.inner(grad, dx) = 0 >= 0`, so `dx` is replaced by `-grad`),
the run does not crash — the conditioning ratio `s[0]/s[-1]` with
`s = [0]` is purely diagnostic — and terminates after the first
iteration with the Converged code `0`, since the zero gradient is below
the `1e-14` tolerance floor. -/
theorem gn_zero_jacobian_converged :
    (0 : ℚ) ≤ npInner (matTvec (Fsq [0]) (fsq [0]))
        (solver1x1 (Fsq [0]) (fsq [0])).1 ∧
    gnDirection (matTvec (Fsq [0]) (fsq [0]))
        (solver1x1 (Fsq [0]) (fsq [0])).1
      = (matTvec (Fsq [0]) (fsq [0])).map (fun t => -t) ∧
    gn fsq Fsq [0] (1/100000) (1/1000000000000) 100 defaultTrajectory
        solver1x1 nrm1 allFiniteTrue = Except.ok ([0], 0) := by
  refine ⟨by norm_num [npInner, matTvec, Fsq, fsq, solver1x1], ?_,
    gn_fsq_eval allFiniteTrue (1/100000) (1/1000000000000) 99⟩
  unfold gnDirection
  rw [if_pos (by norm_num [npInner, matTvec, Fsq, fsq, solver1x1])]
